import Mathlib

/-!
Shallow embedding of the `pytest_richtrace` core (event bus, collection
accumulator, execution-node state machine, run results) together with
theorems settling the specification claims against it.

Conventions of the embedding:
* Python `str` identifier aliases (`EventId`, `NodeId`, ...) become `String`.
* Wall-clock instants (`datetime`) and `time.perf_counter()` values become
  rationals (`ℚ`); the claims under scrutiny concern control flow and
  ordering of timestamps, not floating-point rounding.
* Python `dict`s become association lists with insertion-order semantics
  (`dictInsert` replaces the value of an existing key in place and appends
  a fresh key at the end, exactly like CPython dicts; `dictGet` is lookup).
* Python `set`s of node ids become duplicate-free lists (`setAdd` is
  `set.add`); only membership is ever consumed.
* A raised exception becomes `Except.error` carrying the message; captured
  exception objects are stored as message strings.
* Event payloads (`Any` in the source) are a type parameter `π`.
* Subscriber callbacks are modelled by identity tags (`Nat`): the bus never
  inspects a callback, it only decides whether to invoke it, so the list of
  invoked subscriptions fully describes `_notify`'s behaviour.
-/

namespace RichTrace

abbrev EventId := String
abbrev EventName := String
abbrev EventSource := String
abbrev ItemId := String
abbrev NodeId := String
abbrev ModuleId := String

/-- Wall-clock instants (`datetime`), modelled as rationals. -/
abbrev Time := ℚ

/-- Model of `time.perf_counter()` instants (`PerfTime = float`), modelled as rationals. -/
abbrev PerfTime := ℚ

/-- Insertion-ordered dictionary update, as on a CPython `dict`:
`d[k] = v` overwrites the value of an existing key in place and appends a
new key at the end. -/
def dictInsert {κ β : Type} [DecidableEq κ] :
    List (κ × β) → κ → β → List (κ × β)
  | [], k, v => [(k, v)]
  | (k', v') :: rest, k, v =>
      if k' = k then (k, v) :: rest else (k', v') :: dictInsert rest k v

/-- Dictionary lookup (`d.get(k, None)`). -/
def dictGet {κ β : Type} [DecidableEq κ] : List (κ × β) → κ → Option β
  | [], _ => none
  | (k', v') :: rest, k => if k' = k then some v' else dictGet rest k

theorem dictGet_dictInsert_self {κ β : Type} [DecidableEq κ]
    (l : List (κ × β)) (k : κ) (v : β) :
    dictGet (dictInsert l k v) k = some v := by
  induction l with
  | nil => simp [dictInsert, dictGet]
  | cons p rest ih =>
      obtain ⟨k', v'⟩ := p
      by_cases h : k' = k
      · simp [dictInsert, dictGet, h]
      · simp [dictInsert, dictGet, h, ih]

/-- If no entry of `l` has key `k`, then `dictInsert` appends. -/
theorem dictInsert_append {κ β : Type} [DecidableEq κ]
    (l : List (κ × β)) (k : κ) (v : β) (h : ∀ p ∈ l, p.1 ≠ k) :
    dictInsert l k v = l ++ [(k, v)] := by
  induction l with
  | nil => simp [dictInsert]
  | cons p rest ih =>
      obtain ⟨k', v'⟩ := p
      have hk : k' ≠ k := h (k', v') (List.mem_cons_self _ _)
      simp only [dictInsert, if_neg hk, List.cons_append, List.cons.injEq, true_and]
      exact ih fun q hq => h q (List.mem_cons_of_mem _ hq)

/-- Model of `event.Event`: the dataclass's fields.  Payloads are a type
parameter `π`; `item_id`, `time` and `payload` are optional exactly as in
the source (`ItemId | None`, `datetime | None`, `Any | None`). -/
structure Event (π : Type) where
  id : EventId := ""
  source : EventSource := ""
  name : EventName := ""
  item_id : Option ItemId := some ""
  time : Option Time := none
  payload : Option π := none
deriving DecidableEq

/-- Model of `event.SubscriptionInfo`: the pair of the source to exclude and the
callback, the latter modelled by an identity tag. -/
structure SubscriptionInfo where
  source : EventSource
  func : Nat
deriving DecidableEq

/-- Model of `event.EventBus`: the event store (a dict keyed by event id), the
subscription list, and the injected id generator and clock.  The injected
generators are nullary in Python; successive calls are modelled by indexing
with a call counter. -/
structure EventBus (π : Type) where
  events : List (EventId × Event π) := []
  subscriptions : List SubscriptionInfo := []
  event_id_generator : Nat → EventId
  clock : Nat → Time
  counter : Nat := 0

/-- Model of `EventBus.__init__`: empty store, empty subscription list. -/
def mkBus {π : Type} (event_id_generator : Nat → EventId)
    (clock : Nat → Time) : EventBus π :=
  { events := [], subscriptions := [],
    event_id_generator := event_id_generator, clock := clock, counter := 0 }

/-- The event stored by `EventBus.publish` for the draft `event` at the
`i`-th generator call after the current one: a freshly constructed `Event`
whose `id` and `time` come from the injected generator and clock and whose
remaining fields are copied from the draft. -/
def storedEvent {π : Type} (b : EventBus π) (i : Nat) (event : Event π) :
    Event π :=
  { id := b.event_id_generator (b.counter + i)
    source := event.source
    time := some (b.clock (b.counter + i))
    name := event.name
    item_id := event.item_id
    payload := event.payload }

/-- Model of `EventBus.publish`: draw a fresh id and a timestamp, build a new
`Event` from the draft's fields, store it keyed by the id, and return the
id.  The `self._notify(new_event)` call is modelled by
`EventBus.publishNotified`, which computes the subscriptions invoked. -/
def EventBus.publish {π : Type} (b : EventBus π) (event : Event π) :
    EventId × EventBus π :=
  let event_id := b.event_id_generator b.counter
  let new_event := storedEvent b 0 event
  (event_id,
   { b with
      events := dictInsert b.events event_id new_event
      counter := b.counter + 1 })

/-- Model of `EventBus.get_with_id`: point lookup in the store. -/
def EventBus.get_with_id {π : Type} (b : EventBus π) (event_id : EventId) :
    Option (Event π) :=
  dictGet b.events event_id

/-- Model of `EventBus.get_from_source`: the stored events whose source matches, in
store (insertion) order. -/
def EventBus.get_from_source {π : Type} (b : EventBus π)
    (source : EventSource) : List (Event π) :=
  (b.events.map Prod.snd).filter (fun item => item.source == source)

/-- Model of `EventBus.subscribe`: append a `SubscriptionInfo`. -/
def EventBus.subscribe {π : Type} (b : EventBus π) (source : EventSource)
    (func : Nat) : EventBus π :=
  { b with subscriptions := b.subscriptions ++ [⟨source, func⟩] }

/-- Model of `EventBus._notify`: the subscriptions whose callbacks are invoked for
`event`, in registration order — every current subscription whose source
differs from the event's source. -/
def EventBus.notify {π : Type} (b : EventBus π) (event : Event π) :
    List SubscriptionInfo :=
  b.subscriptions.filter (fun subscription => subscription.source != event.source)

/-- The subscriptions invoked by `EventBus.publish` for draft `event`:
`_notify` applied to the freshly stored event. -/
def EventBus.publishNotified {π : Type} (b : EventBus π) (event : Event π) :
    List SubscriptionInfo :=
  b.notify (storedEvent b 0 event)

/-- Model of `EventBus.publish` over a list of drafts, left to right, collecting the
returned ids. -/
def EventBus.publishList {π : Type} (b : EventBus π) :
    List (Event π) → List EventId × EventBus π
  | [] => ([], b)
  | e :: es =>
      let r := b.publish e
      let rs := r.2.publishList es
      (r.1 :: rs.1, rs.2)

/-- The ids the injected generator hands out for the next `n` publishes. -/
def generatedIds {π : Type} (b : EventBus π) (n : Nat) : List EventId :=
  (List.range n).map (fun i => b.event_id_generator (b.counter + i))

theorem publish_fst {π : Type} (b : EventBus π) (e : Event π) :
    (b.publish e).1 = b.event_id_generator b.counter := rfl

theorem publish_snd_events {π : Type} (b : EventBus π) (e : Event π) :
    (b.publish e).2.events
      = dictInsert b.events (b.event_id_generator b.counter) (storedEvent b 0 e) := rfl

theorem publish_snd_counter {π : Type} (b : EventBus π) (e : Event π) :
    (b.publish e).2.counter = b.counter + 1 := rfl

theorem publish_snd_gen {π : Type} (b : EventBus π) (e : Event π) :
    (b.publish e).2.event_id_generator = b.event_id_generator := rfl

theorem publish_snd_clock {π : Type} (b : EventBus π) (e : Event π) :
    (b.publish e).2.clock = b.clock := rfl

theorem storedEvent_publish {π : Type} (b : EventBus π) (e x : Event π) (i : Nat) :
    storedEvent (b.publish e).2 i x = storedEvent b (i + 1) x := by
  have h : b.counter + 1 + i = b.counter + (i + 1) := by omega
  simp only [storedEvent, publish_snd_gen, publish_snd_clock, publish_snd_counter, h]

/-- The first publish consumes the head of the pending id stream. -/
theorem generatedIds_succ {π : Type} (b : EventBus π) (e : Event π) (n : Nat) :
    generatedIds b (n + 1)
      = b.event_id_generator b.counter :: generatedIds (b.publish e).2 n := by
  simp only [generatedIds, List.range_succ_eq_map, List.map_cons, List.map_map,
    Nat.add_zero, publish_snd_gen, publish_snd_counter]
  congr 1
  have h : ((fun i => b.event_id_generator (b.counter + i)) ∘ Nat.succ)
      = (fun i => b.event_id_generator (b.counter + 1 + i)) := by
    funext i
    simp only [Function.comp_apply]
    congr 1
    omega
  rw [h]

/-- The ids returned by a sequence of publishes are exactly the ids handed
out by the injected generator, in order. -/
theorem publishList_ids {π : Type} (es : List (Event π)) :
    ∀ b : EventBus π, (b.publishList es).1 = generatedIds b es.length := by
  induction es with
  | nil => intro b; rfl
  | cons e es ih =>
      intro b
      show (b.publish e).1 :: ((b.publish e).2.publishList es).1 = _
      rw [publish_fst, ih (b.publish e).2, List.length_cons, generatedIds_succ b e]

/-- Map a function over `enumFrom (k+1)` by shifting indices of
`enumFrom k`. -/
theorem enumFrom_succ_map {α β : Type} (f : Nat × α → β) :
    ∀ (es : List α) (k : Nat),
      (es.enumFrom (k + 1)).map f
        = (es.enumFrom k).map (fun q => f (q.1 + 1, q.2)) := by
  intro es
  induction es with
  | nil => intro k; rfl
  | cons e es ih =>
      intro k
      simp only [List.enumFrom_cons, List.map_cons, ih (k + 1)]

/-- After a sequence of publishes whose generated ids are fresh (pairwise
distinct and absent from the current store), the store is the old store
followed by one freshly stamped entry per draft, in publish order. -/
theorem publishList_events {π : Type} (es : List (Event π)) :
    ∀ b : EventBus π,
      (∀ p ∈ b.events, p.1 ∉ generatedIds b es.length) →
      (generatedIds b es.length).Nodup →
      (b.publishList es).2.events
        = b.events ++ (es.enum.map fun q =>
            (b.event_id_generator (b.counter + q.1), storedEvent b q.1 q.2)) := by
  induction es with
  | nil => intro b _ _; simp [EventBus.publishList, List.enum]
  | cons e es ih =>
      intro b hfresh hnodup
      rw [List.length_cons, generatedIds_succ b e] at hfresh hnodup
      have hb' : (b.publish e).2.events
          = b.events ++ [(b.event_id_generator b.counter, storedEvent b 0 e)] := by
        rw [publish_snd_events]
        apply dictInsert_append
        intro p hp
        have hnm := hfresh p hp
        simp only [List.mem_cons, not_or] at hnm
        exact hnm.1
      have hfresh' : ∀ p ∈ (b.publish e).2.events,
          p.1 ∉ generatedIds (b.publish e).2 es.length := by
        intro p hp
        rw [hb', List.mem_append] at hp
        rcases hp with hp | hp
        · have hnm := hfresh p hp
          simp only [List.mem_cons, not_or] at hnm
          exact hnm.2
        · simp only [List.mem_singleton] at hp
          rw [hp]
          exact (List.nodup_cons.mp hnodup).1
      have hmain := ih (b.publish e).2 hfresh' (List.nodup_cons.mp hnodup).2
      show ((b.publish e).2.publishList es).2.events = _
      rw [hmain, hb', List.append_assoc]
      congr 1
      show _ = ((e :: es).enum.map fun q =>
          (b.event_id_generator (b.counter + q.1), storedEvent b q.1 q.2))
      rw [List.enum_cons, List.map_cons]
      simp only [List.singleton_append, Nat.add_zero]
      congr 1
      rw [enumFrom_succ_map]
      show List.map _ es.enum = _
      congr 1
      funext q
      have h1 : b.counter + 1 + q.1 = b.counter + (q.1 + 1) := by omega
      rw [publish_snd_gen, publish_snd_counter, storedEvent_publish, h1]

/-- Claim C6: for every subscription registered with source `S` and every
published event whose source equals `S`, the subscription's callback is
never invoked for that event: it is absent from the invocation list
computed by `publish`'s `_notify` call. -/
theorem subscription_self_exclusion {π : Type} (b : EventBus π)
    (event : Event π) (s : SubscriptionInfo)
    (_hreg : s ∈ b.subscriptions) (hsrc : s.source = event.source) :
    s ∉ b.publishNotified event := by
  intro hmem
  have := List.of_mem_filter hmem
  simp only [storedEvent, bne_iff_ne, ne_eq, decide_not] at this
  exact this hsrc

/-- Witness for C6 at a concrete bus: the subscription registered with
source `"S"` is not invoked for a published event of source `"S"`. -/
theorem subscription_self_exclusion_witness :
    (⟨"S", 0⟩ : SubscriptionInfo) ∉
      EventBus.publishNotified
        { events := [], subscriptions := [⟨"S", 0⟩, ⟨"T", 1⟩],
          event_id_generator := fun n => Nat.repr n, clock := fun n => (n : ℚ),
          counter := 0 }
        ({ source := "S", name := "ev" } : Event Unit) :=
  subscription_self_exclusion _ _ _ (by decide) rfl

/-- Claim C7: looking up the id returned by `publish` yields a stored event
whose `source`, `name`, `item_id` and `payload` equal the draft's; its `id`
and `time` are the ones assigned at publish time (the only fields that may
differ from the draft). -/
theorem get_with_id_publish {π : Type} (b : EventBus π) (e : Event π) :
    ∃ ev : Event π,
      (b.publish e).2.get_with_id (b.publish e).1 = some ev ∧
      ev.source = e.source ∧ ev.name = e.name ∧
      ev.item_id = e.item_id ∧ ev.payload = e.payload ∧
      ev.id = b.event_id_generator b.counter ∧
      ev.time = some (b.clock b.counter) := by
  refine ⟨storedEvent b 0 e, ?_, rfl, rfl, rfl, rfl, rfl, rfl⟩
  simp [EventBus.publish, EventBus.get_with_id, dictGet_dictInsert_self]

/-- Claim C8: starting from a freshly constructed bus, publishing `N`
events in sequence under an id generator whose next `N` ids are pairwise
distinct yields `N` pairwise distinct returned ids, and `get_from_source`
returns exactly the published (stamped) events whose source matches, in
publish order. -/
theorem publishList_distinct_get_from_source {π : Type}
    (g : Nat → EventId) (clk : Nat → Time)
    (es : List (Event π)) (src : EventSource)
    (h : (generatedIds (mkBus g clk : EventBus π) es.length).Nodup) :
    ((mkBus g clk : EventBus π).publishList es).1.Nodup ∧
    ((mkBus g clk : EventBus π).publishList es).2.get_from_source src
      = (es.enum.filter (fun q => q.2.source == src)).map
          (fun q => storedEvent (mkBus g clk : EventBus π) q.1 q.2) := by
  constructor
  · rw [publishList_ids]
    exact h
  · have hev := publishList_events es (mkBus g clk)
      (by intro p hp; simp [mkBus] at hp) h
    rw [EventBus.get_from_source, hev]
    show List.filter _ (List.map Prod.snd (List.nil ++ _)) = _
    rw [List.nil_append, List.map_map, List.filter_map]
    rfl

/-- Witness for C8 at a concrete bus and two drafts: the two returned ids
are distinct and `get_from_source "a"` is exactly the stamped events of
source `"a"`, in publish order. -/
theorem publishList_distinct_get_from_source_witness :
    ((mkBus (fun n => Nat.repr n) (fun n => (n : ℚ)) : EventBus Unit).publishList
        [{ source := "a", name := "e1" }, { source := "b", name := "e2" },
         { source := "a", name := "e3" }]).1.Nodup ∧
    ((mkBus (fun n => Nat.repr n) (fun n => (n : ℚ)) : EventBus Unit).publishList
        [{ source := "a", name := "e1" }, { source := "b", name := "e2" },
         { source := "a", name := "e3" }]).2.get_from_source "a"
      = (([{ source := "a", name := "e1" }, { source := "b", name := "e2" },
          { source := "a", name := "e3" }] : List (Event Unit)).enum.filter
            (fun q => q.2.source == "a")).map
          (fun q => storedEvent
            (mkBus (fun n => Nat.repr n) (fun n => (n : ℚ)) : EventBus Unit) q.1 q.2) :=
  publishList_distinct_get_from_source (fun n => Nat.repr n) (fun n => (n : ℚ))
    [{ source := "a", name := "e1" }, { source := "b", name := "e2" },
     { source := "a", name := "e3" }] "a" (by decide)

/-!
Object-identity model for claim C10.  Python `Event` instances live on a
heap; `EventBus.publish` reads the caller's draft object, constructs a
*new* `Event` object from its fields (it never assigns to the draft's
`id`/`time`), and stores a reference to the new object.  The heap is a
bump allocator: addresses below `next` are live.
-/

/-- A heap of `Event` objects: a bump-allocation bound and the object
stored at each address. -/
structure Heap (π : Type) where
  next : Nat
  mem : Nat → Event π

/-- Read the object at an address (attribute access on a reference). -/
def Heap.get {π : Type} (h : Heap π) (a : Nat) : Event π := h.mem a

/-- Overwrite the object at an address (attribute mutation through a
reference). -/
def Heap.set {π : Type} (h : Heap π) (a : Nat) (e : Event π) : Heap π :=
  { h with mem := fun x => if x = a then e else h.mem x }

/-- Allocate a fresh object (`Event({...})` constructs a new instance). -/
def Heap.alloc {π : Type} (h : Heap π) (e : Event π) : Nat × Heap π :=
  (h.next, { next := h.next + 1, mem := fun x => if x = h.next then e else h.mem x })

/-- The bus state for the heap model: the store maps event ids to object
addresses. -/
structure EventBusH (π : Type) where
  events : List (EventId × Nat) := []
  event_id_generator : Nat → EventId
  clock : Nat → Time
  counter : Nat := 0

/-- Model of `EventBus.publish` on the heap model: read the draft at `draftAddr`,
build a new `Event` from its fields with a fresh id and timestamp,
allocate it, and store its address keyed by the id. -/
def publishH {π : Type} (h : Heap π) (b : EventBusH π) (draftAddr : Nat) :
    EventId × Heap π × EventBusH π :=
  let event := h.get draftAddr
  let event_id := b.event_id_generator b.counter
  let new_event : Event π :=
    { id := event_id
      source := event.source
      time := some (b.clock b.counter)
      name := event.name
      item_id := event.item_id
      payload := event.payload }
  let alloc := h.alloc new_event
  (event_id,
   alloc.2,
   { b with
      events := dictInsert b.events event_id alloc.1
      counter := b.counter + 1 })

/-- Claim C10: `publish` stores a freshly constructed `Event` built from
the draft's fields.  For every live draft address: (1) the draft object is
unchanged after publish (its `id`/`time` are not written back); (2) the
stored event lives at a distinct address whose fields copy the draft's
`source`/`name`/`item_id`/`payload`, and mutating the draft object after
publish returns leaves the stored event untouched. -/
theorem publish_fresh_no_draft_mutation {π : Type} (h : Heap π)
    (b : EventBusH π) (a : Nat) (ha : a < h.next) :
    (publishH h b a).2.1.get a = h.get a ∧
    ∃ sa : Nat,
      dictGet (publishH h b a).2.2.events (b.event_id_generator b.counter) = some sa ∧
      sa ≠ a ∧
      (∀ v : Event π, (((publishH h b a).2.1.set a v).get sa
          = (publishH h b a).2.1.get sa)) ∧
      ((publishH h b a).2.1.get sa).source = (h.get a).source ∧
      ((publishH h b a).2.1.get sa).name = (h.get a).name ∧
      ((publishH h b a).2.1.get sa).item_id = (h.get a).item_id ∧
      ((publishH h b a).2.1.get sa).payload = (h.get a).payload := by
  have hne : h.next ≠ a := by omega
  have hget : (publishH h b a).2.1.get h.next
      = { id := b.event_id_generator b.counter
          source := (h.get a).source
          time := some (b.clock b.counter)
          name := (h.get a).name
          item_id := (h.get a).item_id
          payload := (h.get a).payload } := by
    show (if h.next = h.next then _ else _) = _
    rw [if_pos rfl]
  constructor
  · show (if a = h.next then _ else h.mem a) = h.mem a
    rw [if_neg (by omega)]
  · refine ⟨h.next, ?_, by omega, ?_, ?_, ?_, ?_, ?_⟩
    · exact dictGet_dictInsert_self b.events (b.event_id_generator b.counter) h.next
    · intro v
      show (if h.next = a then v else _) = _
      rw [if_neg hne]
      rfl
    all_goals rw [hget]

/-- A one-object heap for the C10 witness: the draft lives at address 0. -/
def c10Heap : Heap Unit :=
  { next := 1, mem := fun _ => { source := "S", name := "draft" } }

/-- A concrete bus for the C10 witness. -/
def c10Bus : EventBusH Unit :=
  { events := [], event_id_generator := fun n => Nat.repr n,
    clock := fun n => (n : ℚ), counter := 0 }

/-- Witness for C10 at a concrete heap and bus: the draft at address 0 is
live, publish leaves it unchanged, and the stored event sits at a fresh
address unaffected by later draft mutation. -/
theorem publish_fresh_no_draft_mutation_witness :
    (0 < c10Heap.next) ∧
    ((publishH c10Heap c10Bus 0).2.1.get 0 = c10Heap.get 0 ∧
     ∃ sa : Nat,
       dictGet (publishH c10Heap c10Bus 0).2.2.events
           (c10Bus.event_id_generator c10Bus.counter) = some sa ∧
       sa ≠ 0 ∧
       (∀ v : Event Unit, (((publishH c10Heap c10Bus 0).2.1.set 0 v).get sa
           = (publishH c10Heap c10Bus 0).2.1.get sa)) ∧
       ((publishH c10Heap c10Bus 0).2.1.get sa).source = (c10Heap.get 0).source ∧
       ((publishH c10Heap c10Bus 0).2.1.get sa).name = (c10Heap.get 0).name ∧
       ((publishH c10Heap c10Bus 0).2.1.get sa).item_id = (c10Heap.get 0).item_id ∧
       ((publishH c10Heap c10Bus 0).2.1.get sa).payload = (c10Heap.get 0).payload) :=
  ⟨by decide, publish_fresh_no_draft_mutation c10Heap c10Bus 0 (by decide)⟩

/-!
`results.py`: the record types, and the observer methods from
`collection_observer.py` / `test_execution_observer.py` / `plugin.py` that
mutate them.  Event publication by the observers does not touch the
records and is not repeated here (it is the bus model above).
-/

/-- Model of `results.TestStage`. -/
inductive TestStage where
  | Collect
  | Setup
  | Call
  | Teardown
deriving DecidableEq

/-- Model of `results.TestResult`. -/
inductive TestResult where
  | Error
  | Passed
  | Failed
  | Skipped
  | XFailed
  | XPassed
  | Deselected
  | Unknown
deriving DecidableEq

/-- Model of `results.SkipInfo`. -/
structure SkipInfo where
  reason : String
  markers : List String := []
deriving DecidableEq

/-- Model of `results.XfailInfo`; `raises` is kept in its serialized form (the list
of exception type names). -/
structure XfailInfo where
  reason : String
  raises : List String := []
  run : Bool
  strict : Bool
  markers : List String := []
deriving DecidableEq

/-- Model of `results.TestCollectionRecord`; captured exceptions are stored as
message strings. -/
structure TestCollectionRecord where
  count : Nat := 0
  start : Option Time := none
  stop : Option Time := none
  precise_start : PerfTime := 0
  precise_stop : PerfTime := 0
  error : List (ModuleId × String) := []
  skip : List (NodeId × List SkipInfo) := []
  xfail : List (NodeId × List XfailInfo) := []
  deselected : List NodeId := []
deriving DecidableEq

/-- Model of `results.TestExecutionResultRecord`. -/
structure TestExecutionResultRecord where
  outcome : String := ""
  when : String := ""
  function : String := ""
  module : ModuleId := ""
  line : Option Int := none
  precise_start : PerfTime := 0
  precise_stop : PerfTime := 0
  xfail : Bool := false
  xdist : Bool := false
  exception : Option String := none
deriving DecidableEq

/-- Model of `TestExecutionResultRecord.duration`: a bare subtraction, with no
validation of the endpoints. -/
def TestExecutionResultRecord.duration (r : TestExecutionResultRecord) :
    PerfTime :=
  r.precise_stop - r.precise_start

/-- Model of `results.TestExecutionNodeRecord`. -/
structure TestExecutionNodeRecord where
  nodeid : NodeId
  stages : List (TestStage × TestExecutionResultRecord) := []
  result : TestResult := TestResult.Unknown
deriving DecidableEq

/-- Model of `results.TestExecutionRecord`; the six aggregate sets are
duplicate-free lists consumed only through membership. -/
structure TestExecutionRecord where
  count : Nat := 0
  start : Option Time := none
  stop : Option Time := none
  precise_start : PerfTime := 0
  precise_stop : PerfTime := 0
  nodes : List (NodeId × TestExecutionNodeRecord) := []
  passed : List NodeId := []
  failed : List NodeId := []
  skipped : List NodeId := []
  xfailed : List NodeId := []
  xpassed : List NodeId := []
  error : List NodeId := []
deriving DecidableEq

/-- Model of `set.add` on an aggregate set. -/
def setAdd (s : List NodeId) (x : NodeId) : List NodeId :=
  if x ∈ s then s else s ++ [x]

/-- Model of `results.TestRunResults`. -/
structure TestRunResults where
  run_id : String
  start : Option Time := none
  stop : Option Time := none
  precise_start : PerfTime := 0
  precise_stop : PerfTime := 0
  collect : TestCollectionRecord := {}
  execute : TestExecutionRecord := {}
deriving DecidableEq

/-- Model of `CollectionObserver.pytest_pycollect_makemodule`, restricted to its
effect on the collection record.  `importResult` is the outcome of the
`import_path` call: `Except.error exc` when importing the module raises.
On error the hook increments `collect.count`, records the exception keyed
by the module path, and publishes a `ModuleCollectionError` event (the
publication does not touch the record). -/
def pytest_pycollect_makemodule (collect : TestCollectionRecord)
    (module_path : ModuleId) (importResult : Except String Unit) :
    TestCollectionRecord :=
  match importResult with
  | Except.ok _ => collect
  | Except.error exc =>
      { collect with
          count := collect.count + 1
          error := dictInsert collect.error module_path exc }

/-- Model of `PytestRichTrace.duration` (plugin.py): validates that both wall-clock
endpoints are set and correctly ordered before subtracting; raising
`ValueError` is modelled by `Except.error` carrying the message. -/
def plugin_duration (results : TestRunResults) : Except String Time :=
  match results.stop, results.start with
  | some stop, some start =>
      if stop < start then Except.error "end time is before start time"
      else Except.ok (stop - start)
  | _, _ => Except.error "Stop time is before start time"

/-- Model of `PytestRichTrace.duration_precise` (plugin.py): the source's
`is None` test is vacuous because the precise endpoints are floats that
default to `0.0`, so only the ordering check remains. -/
def plugin_duration_precise (results : TestRunResults) :
    Except String PerfTime :=
  if results.precise_stop < results.precise_start then
    Except.error "end time is before start time"
  else Except.ok (results.precise_stop - results.precise_start)

/-- Model of `TestExecutionObserver._finalize_node`, as a function of the current
execution record and the node being finalized.  Python's
`AttributeError` — raised when a missing stage record (`None`) has its
`outcome` attribute read — is modelled by `Except.error`.  Outcome strings
are compared exactly as in the source (`TestResult` members are
`StrEnum`s, so `setup.outcome == TestResult.Failed` is a comparison with
`"failed"`). -/
def finalizeNode (execute : TestExecutionRecord)
    (node : TestExecutionNodeRecord) (nodeid : NodeId) :
    Except String (TestExecutionNodeRecord × TestExecutionRecord) :=
  match dictGet node.stages TestStage.Call with
  | none =>
      match dictGet node.stages TestStage.Setup with
      | none => Except.error "AttributeError: NoneType has no attribute outcome"
      | some setup =>
          if setup.outcome = "skipped" then
            Except.ok ({ node with result := TestResult.Skipped },
              { execute with skipped := setAdd execute.skipped nodeid })
          else if setup.outcome = "failed" then
            Except.ok ({ node with result := TestResult.Error },
              { execute with error := setAdd execute.error nodeid })
          else
            Except.ok ({ node with result := TestResult.Unknown }, execute)
  | some call =>
      match dictGet node.stages TestStage.Setup,
            dictGet node.stages TestStage.Teardown with
      | some setup, some teardown =>
          let all_passed := setup.outcome = "passed" ∧ call.outcome = "passed" ∧
              teardown.outcome = "passed"
          if call.xfail then
            if all_passed then
              Except.ok ({ node with result := TestResult.XPassed },
                { execute with xpassed := setAdd execute.xpassed nodeid })
            else
              Except.ok ({ node with result := TestResult.XFailed },
                { execute with xfailed := setAdd execute.xfailed nodeid })
          else
            if all_passed then
              Except.ok ({ node with result := TestResult.Passed },
                { execute with passed := setAdd execute.passed nodeid })
            else if call.outcome = "failed" then
              Except.ok ({ node with result := TestResult.Failed },
                { execute with failed := setAdd execute.failed nodeid })
            else if call.outcome = "skipped" then
              Except.ok ({ node with result := TestResult.Skipped }, execute)
            else
              Except.ok (node, execute)
      | _, _ => Except.error "AttributeError: NoneType has no attribute outcome"

/-- Counterexample to C1: processing a module-collection error *does*
increment `collect.count` — on the empty record, the count after the error
differs from the count before it. -/
theorem makemodule_error_increments_count :
    (pytest_pycollect_makemodule {} "tests/bad_module.py"
        (Except.error "SyntaxError: invalid syntax")).count
      ≠ ({} : TestCollectionRecord).count := by
  decide

/-- Claim C1 as amended: when a module fails to import, the hook records
the exception keyed by that module's path *and* increments
`collect.count` by exactly one: for every failing module, `collect.count`
after processing the error equals `collect.count` before it plus one. -/
theorem makemodule_error_records_and_increments
    (collect : TestCollectionRecord) (module_path : ModuleId) (exc : String) :
    (pytest_pycollect_makemodule collect module_path (Except.error exc)).count
        = collect.count + 1 ∧
    dictGet (pytest_pycollect_makemodule collect module_path
        (Except.error exc)).error module_path = some exc := by
  refine ⟨rfl, ?_⟩
  exact dictGet_dictInsert_self collect.error module_path exc

/-- Counterexample to C3: the per-stage-result `duration` accessor
performs no validation — with `precise_stop` before `precise_start` it
silently returns a negative duration instead of failing. -/
theorem stage_duration_silently_negative :
    TestExecutionResultRecord.duration { precise_start := 1, precise_stop := 0 }
        = -1 ∧
    TestExecutionResultRecord.duration { precise_start := 1, precise_stop := 0 }
        < 0 := by
  constructor <;> norm_num [TestExecutionResultRecord.duration]

/-- Claim C3 as amended: the *run-level* accessors (`duration` and
`duration_precise` on the plugin) fail with a descriptive error whenever
an endpoint is unset or the stop endpoint precedes the start endpoint, and
whenever they return a value it is non-negative; the per-stage-result
`duration` accessor performs no such validation. -/
theorem run_duration_validates (results : TestRunResults) :
    ((results.stop = none ∨ results.start = none) →
        ∃ msg, plugin_duration results = Except.error msg) ∧
    (∀ b a : Time, results.stop = some b → results.start = some a → b < a →
        ∃ msg, plugin_duration results = Except.error msg) ∧
    (∀ d : Time, plugin_duration results = Except.ok d → 0 ≤ d) ∧
    (results.precise_stop < results.precise_start →
        ∃ msg, plugin_duration_precise results = Except.error msg) ∧
    (∀ d : PerfTime, plugin_duration_precise results = Except.ok d → 0 ≤ d) := by
  refine ⟨?_, ?_, ?_, ?_, ?_⟩
  · intro hnone
    unfold plugin_duration
    rcases hnone with h | h <;> rw [h]
    · exact ⟨_, rfl⟩
    · rcases hstop : results.stop with _ | b <;> exact ⟨_, rfl⟩
  · intro b a hb ha hlt
    refine ⟨"end time is before start time", ?_⟩
    unfold plugin_duration
    rw [hb, ha]
    simp [hlt]
  · intro d hd
    unfold plugin_duration at hd
    rcases hb : results.stop with _ | b <;> rw [hb] at hd
    · simp at hd
    · rcases ha : results.start with _ | a <;> rw [ha] at hd
      · simp at hd
      · by_cases hlt : b < a
        · simp [hlt] at hd
        · simp [hlt] at hd
          push_neg at hlt
          linarith [hd]
  · intro hlt
    refine ⟨"end time is before start time", ?_⟩
    unfold plugin_duration_precise
    rw [if_pos hlt]
  · intro d hd
    unfold plugin_duration_precise at hd
    by_cases hlt : results.precise_stop < results.precise_start
    · rw [if_pos hlt] at hd
      simp at hd
    · rw [if_neg hlt] at hd
      simp only [Except.ok.injEq] at hd
      rw [← hd]
      push_neg at hlt
      linarith

/-- Witness for the amended C3 at concrete records: an unset stop endpoint
makes `duration` fail, and reversed precise endpoints make
`duration_precise` fail. -/
theorem run_duration_validates_witness :
    (∃ msg, plugin_duration { run_id := "r" } = Except.error msg) ∧
    (∃ msg, plugin_duration_precise
        { run_id := "r", precise_start := 2, precise_stop := 1 }
      = Except.error msg) :=
  ⟨(run_duration_validates { run_id := "r" }).1 (Or.inl rfl),
   (run_duration_validates
      { run_id := "r", precise_start := 2, precise_stop := 1 }).2.2.2.1
     (by norm_num)⟩

/-- A node that received only a Teardown stage report (no prior Setup):
the shape produced by an out-of-order report sequence. -/
def teardownOnlyNode : TestExecutionNodeRecord :=
  { nodeid := "tests/test_x.py::test_td"
    stages := [(TestStage.Teardown, { outcome := "passed", when := "teardown" })] }

/-- Counterexample to C4: finalizing a node holding a Teardown report with
no prior Setup report raises (Python `AttributeError` on
`setup.outcome`) — the anomaly is not captured as data. -/
theorem finalize_teardown_without_setup_raises :
    finalizeNode {} teardownOnlyNode "tests/test_x.py::test_td"
      = Except.error "AttributeError: NoneType has no attribute outcome" := by
  rfl

/-- Claim C4 as amended: for every node whose stage mapping has no Setup
entry (in particular one holding only a Teardown report), finalization
fails with an `AttributeError` instead of completing gracefully; the
anomaly is not stored in the record. -/
theorem finalize_without_setup_fails (execute : TestExecutionRecord)
    (node : TestExecutionNodeRecord) (nodeid : NodeId)
    (hsetup : dictGet node.stages TestStage.Setup = none) :
    ∃ msg, finalizeNode execute node nodeid = Except.error msg := by
  refine ⟨"AttributeError: NoneType has no attribute outcome", ?_⟩
  unfold finalizeNode
  rcases hcall : dictGet node.stages TestStage.Call with _ | call
  · rw [hsetup]
  · rw [hsetup]

/-- Witness for the amended C4: the Teardown-only node has no Setup entry
and its finalization fails. -/
theorem finalize_without_setup_fails_witness :
    dictGet teardownOnlyNode.stages TestStage.Setup = none ∧
    ∃ msg, finalizeNode {} teardownOnlyNode "tests/test_x.py::test_td"
      = Except.error msg :=
  ⟨rfl, finalize_without_setup_fails {} teardownOnlyNode
    "tests/test_x.py::test_td" rfl⟩

/-- Claim C5: for a node whose Call-stage result is present and not marked
xfail, whose Call outcome is `"skipped"`, and whose three stages are not
all passed, finalization sets the node result to `Skipped`, leaves the
execution record — in particular all six aggregate sets — entirely
unchanged, and so inserts the identifier into none of them (not even
`skipped`). -/
theorem finalize_call_skipped_no_set_insertion
    (execute : TestExecutionRecord) (node : TestExecutionNodeRecord)
    (nodeid : NodeId) (setup call teardown : TestExecutionResultRecord)
    (hs : dictGet node.stages TestStage.Setup = some setup)
    (hc : dictGet node.stages TestStage.Call = some call)
    (ht : dictGet node.stages TestStage.Teardown = some teardown)
    (hx : call.xfail = false)
    (ho : call.outcome = "skipped")
    (hnp : ¬(setup.outcome = "passed" ∧ call.outcome = "passed" ∧
        teardown.outcome = "passed")) :
    finalizeNode execute node nodeid
      = Except.ok ({ node with result := TestResult.Skipped }, execute) := by
  unfold finalizeNode
  rw [hc, hs, ht]
  simp only [hx, Bool.false_eq_true, if_false, if_neg hnp]
  rw [ho]
  simp

/-- Witness for C5 at a concrete node (setup passed, call skipped without
xfail, teardown passed): the result is `Skipped` and the record is
unchanged. -/
theorem finalize_call_skipped_no_set_insertion_witness :
    finalizeNode {}
        { nodeid := "tests/test_x.py::test_skip_call"
          stages := [(TestStage.Setup, { outcome := "passed" }),
                     (TestStage.Call, { outcome := "skipped" }),
                     (TestStage.Teardown, { outcome := "passed" })] }
        "tests/test_x.py::test_skip_call"
      = Except.ok
          ({ nodeid := "tests/test_x.py::test_skip_call"
             stages := [(TestStage.Setup, { outcome := "passed" }),
                        (TestStage.Call, { outcome := "skipped" }),
                        (TestStage.Teardown, { outcome := "passed" })]
             result := TestResult.Skipped }, {}) :=
  finalize_call_skipped_no_set_insertion {} _ _ _ _ _
    rfl rfl rfl rfl rfl (by decide)

/-- Claim C9: for a node whose Call-stage result is present and marked
xfail (Setup and Teardown results also present): if all three stage
outcomes are `"passed"`, finalization sets the result to `XPassed` and
adds the identifier to `xpassed` while every other aggregate set is left
as it was; otherwise it sets the result to `XFailed` and adds the
identifier to `xfailed` only. -/
theorem finalize_xfail_classification
    (execute : TestExecutionRecord) (node : TestExecutionNodeRecord)
    (nodeid : NodeId) (setup call teardown : TestExecutionResultRecord)
    (hs : dictGet node.stages TestStage.Setup = some setup)
    (hc : dictGet node.stages TestStage.Call = some call)
    (ht : dictGet node.stages TestStage.Teardown = some teardown)
    (hx : call.xfail = true) :
    ((setup.outcome = "passed" ∧ call.outcome = "passed" ∧
        teardown.outcome = "passed") →
      finalizeNode execute node nodeid
        = Except.ok ({ node with result := TestResult.XPassed },
            { execute with xpassed := setAdd execute.xpassed nodeid }) ∧
      nodeid ∈ setAdd execute.xpassed nodeid) ∧
    (¬(setup.outcome = "passed" ∧ call.outcome = "passed" ∧
        teardown.outcome = "passed") →
      finalizeNode execute node nodeid
        = Except.ok ({ node with result := TestResult.XFailed },
            { execute with xfailed := setAdd execute.xfailed nodeid }) ∧
      nodeid ∈ setAdd execute.xfailed nodeid) := by
  have hmem : ∀ s : List NodeId, nodeid ∈ setAdd s nodeid := by
    intro s
    unfold setAdd
    by_cases hin : nodeid ∈ s
    · rw [if_pos hin]
      exact hin
    · rw [if_neg hin]
      simp
  constructor
  · intro hap
    refine ⟨?_, hmem _⟩
    unfold finalizeNode
    rw [hc, hs, ht]
    simp only [hx, if_true, if_pos hap]
  · intro hnp
    refine ⟨?_, hmem _⟩
    unfold finalizeNode
    rw [hc, hs, ht]
    simp only [hx, if_true, if_neg hnp]

/-- Witness for C9 at two concrete nodes: an xfail-marked call with all
stages passed lands in `xpassed`, and one with a failing call lands in
`xfailed`. -/
theorem finalize_xfail_classification_witness :
    (finalizeNode {}
        { nodeid := "t::xp"
          stages := [(TestStage.Setup, { outcome := "passed" }),
                     (TestStage.Call, { outcome := "passed", xfail := true }),
                     (TestStage.Teardown, { outcome := "passed" })] }
        "t::xp"
      = Except.ok
          ({ nodeid := "t::xp"
             stages := [(TestStage.Setup, { outcome := "passed" }),
                        (TestStage.Call, { outcome := "passed", xfail := true }),
                        (TestStage.Teardown, { outcome := "passed" })]
             result := TestResult.XPassed },
           { xpassed := setAdd [] "t::xp" }) ∧
      "t::xp" ∈ setAdd [] "t::xp") ∧
    (finalizeNode {}
        { nodeid := "t::xf"
          stages := [(TestStage.Setup, { outcome := "passed" }),
                     (TestStage.Call, { outcome := "failed", xfail := true }),
                     (TestStage.Teardown, { outcome := "passed" })] }
        "t::xf"
      = Except.ok
          ({ nodeid := "t::xf"
             stages := [(TestStage.Setup, { outcome := "passed" }),
                        (TestStage.Call, { outcome := "failed", xfail := true }),
                        (TestStage.Teardown, { outcome := "passed" })]
             result := TestResult.XFailed },
           { xfailed := setAdd [] "t::xf" }) ∧
      "t::xf" ∈ setAdd [] "t::xf") :=
  ⟨(finalize_xfail_classification {}
      { nodeid := "t::xp"
        stages := [(TestStage.Setup, { outcome := "passed" }),
                   (TestStage.Call, { outcome := "passed", xfail := true }),
                   (TestStage.Teardown, { outcome := "passed" })] }
      "t::xp" { outcome := "passed" } { outcome := "passed", xfail := true }
      { outcome := "passed" } rfl rfl rfl rfl).1 ⟨rfl, rfl, rfl⟩,
   (finalize_xfail_classification {}
      { nodeid := "t::xf"
        stages := [(TestStage.Setup, { outcome := "passed" }),
                   (TestStage.Call, { outcome := "failed", xfail := true }),
                   (TestStage.Teardown, { outcome := "passed" })] }
      "t::xf" { outcome := "passed" } { outcome := "failed", xfail := true }
      { outcome := "passed" } rfl rfl rfl rfl).2 (by decide)⟩

/-- Membership of a node id in `setAdd s x` for the added id itself. -/
theorem mem_setAdd_self (s : List NodeId) (x : NodeId) : x ∈ setAdd s x := by
  unfold setAdd
  by_cases hin : x ∈ s
  · rw [if_pos hin]
    exact hin
  · rw [if_neg hin]
    simp

/-- The number of the six aggregate sets of an execution record that
contain a given node id. -/
def memberCountSix (e : TestExecutionRecord) (x : NodeId) : Nat :=
  (if x ∈ e.passed then 1 else 0) + (if x ∈ e.failed then 1 else 0) +
  (if x ∈ e.skipped then 1 else 0) + (if x ∈ e.xfailed then 1 else 0) +
  (if x ∈ e.xpassed then 1 else 0) + (if x ∈ e.error then 1 else 0)

/-- The finalization branches that update no aggregate set: the `Unknown`
branch (no Call result, Setup outcome neither skipped nor failed) and the
non-xfail not-all-passed branches whose Call outcome is not `"failed"`
(`"skipped"` or anything else). -/
def FinalizeGap (node : TestExecutionNodeRecord) : Prop :=
  match dictGet node.stages TestStage.Call, dictGet node.stages TestStage.Setup,
        dictGet node.stages TestStage.Teardown with
  | none, some setup, _ =>
      setup.outcome ≠ "skipped" ∧ setup.outcome ≠ "failed"
  | some call, some setup, some teardown =>
      call.xfail = false ∧
      ¬(setup.outcome = "passed" ∧ call.outcome = "passed" ∧
          teardown.outcome = "passed") ∧
      call.outcome ≠ "failed"
  | _, _, _ => False

/-- A node whose Call stage was skipped (setup and teardown passed, no
xfail): finalizing it exercises the documented no-insertion gap. -/
def callSkippedNode : TestExecutionNodeRecord :=
  { nodeid := "tests/test_x.py::test_call_skip"
    stages := [(TestStage.Setup, { outcome := "passed" }),
               (TestStage.Call, { outcome := "skipped" }),
               (TestStage.Teardown, { outcome := "passed" })] }

/-- Counterexample to C2: finalizing the Call-skipped node succeeds but
leaves the identifier in *none* of the six aggregate sets — not in exactly
one of them as the claim requires. -/
theorem finalize_not_exactly_one_set :
    finalizeNode {} callSkippedNode "tests/test_x.py::test_call_skip"
        = Except.ok ({ callSkippedNode with result := TestResult.Skipped }, {}) ∧
    memberCountSix ({} : TestExecutionRecord) "tests/test_x.py::test_call_skip"
        ≠ 1 := by
  constructor
  · rfl
  · decide

/-- Claim C2 as amended: if the identifier is in none of the six aggregate
sets before finalization and finalization succeeds, afterwards the
identifier is in *at most* one of the six sets, and it is in none of them
exactly when finalization took one of the documented gap branches
(`FinalizeGap`: the `Unknown` branch, or a non-xfail not-all-passed branch
whose Call outcome is not `"failed"`); in every other branch it is in
exactly one set. -/
theorem finalize_at_most_one_set
    (execute : TestExecutionRecord) (node : TestExecutionNodeRecord)
    (nodeid : NodeId) (node' : TestExecutionNodeRecord)
    (exec' : TestExecutionRecord)
    (h0 : nodeid ∉ execute.passed ∧ nodeid ∉ execute.failed ∧
          nodeid ∉ execute.skipped ∧ nodeid ∉ execute.xfailed ∧
          nodeid ∉ execute.xpassed ∧ nodeid ∉ execute.error)
    (hfin : finalizeNode execute node nodeid = Except.ok (node', exec')) :
    memberCountSix exec' nodeid ≤ 1 ∧
    (memberCountSix exec' nodeid = 0 ↔ FinalizeGap node) := by
  obtain ⟨hP, hF, hS, hXF, hXP, hE⟩ := h0
  unfold finalizeNode at hfin
  rcases hc : dictGet node.stages TestStage.Call with _ | call <;>
    rw [hc] at hfin
  · rcases hs : dictGet node.stages TestStage.Setup with _ | setup <;>
      rw [hs] at hfin
    · simp at hfin
    · by_cases h1 : setup.outcome = "skipped"
      · simp [h1] at hfin
        obtain ⟨hn, he⟩ := hfin
        subst he
        refine ⟨?_, ?_⟩
        · simp [memberCountSix, hP, hF, hXF, hXP, hE, mem_setAdd_self]
        · simp [memberCountSix, hP, hF, hXF, hXP, hE, mem_setAdd_self,
            FinalizeGap, hc, hs, h1]
      · by_cases h2 : setup.outcome = "failed"
        · simp [h1, h2] at hfin
          obtain ⟨hn, he⟩ := hfin
          subst he
          refine ⟨?_, ?_⟩
          · simp [memberCountSix, hP, hF, hS, hXF, hXP, mem_setAdd_self]
          · simp [memberCountSix, hP, hF, hS, hXF, hXP, mem_setAdd_self,
              FinalizeGap, hc, hs, h2]
        · simp [h1, h2] at hfin
          obtain ⟨hn, he⟩ := hfin
          subst he
          refine ⟨?_, ?_⟩
          · simp [memberCountSix, hP, hF, hS, hXF, hXP, hE]
          · simp [memberCountSix, hP, hF, hS, hXF, hXP, hE,
              FinalizeGap, hc, hs, h1, h2]
  · rcases hs : dictGet node.stages TestStage.Setup with _ | setup <;>
      rw [hs] at hfin
    · simp at hfin
    · rcases ht : dictGet node.stages TestStage.Teardown with _ | teardown <;>
        rw [ht] at hfin
      · simp at hfin
      · by_cases hap : setup.outcome = "passed" ∧ call.outcome = "passed" ∧
            teardown.outcome = "passed"
        · rcases hx : call.xfail
          · simp [hx, hap] at hfin
            obtain ⟨hn, he⟩ := hfin
            subst he
            refine ⟨?_, ?_⟩
            · simp [memberCountSix, hF, hS, hXF, hXP, hE, mem_setAdd_self]
            · simp [memberCountSix, hF, hS, hXF, hXP, hE, mem_setAdd_self,
                FinalizeGap, hc, hs, ht, hap]
          · simp [hx, hap] at hfin
            obtain ⟨hn, he⟩ := hfin
            subst he
            refine ⟨?_, ?_⟩
            · simp [memberCountSix, hP, hF, hS, hXF, hE, mem_setAdd_self]
            · simp [memberCountSix, hP, hF, hS, hXF, hE, mem_setAdd_self,
                FinalizeGap, hc, hs, ht, hx]
        · rcases hx : call.xfail
          · by_cases h2 : call.outcome = "failed"
            · simp [hx, hap, h2] at hfin
              obtain ⟨hn, he⟩ := hfin
              subst he
              refine ⟨?_, ?_⟩
              · simp [memberCountSix, hP, hS, hXF, hXP, hE, mem_setAdd_self]
              · simp [memberCountSix, hP, hS, hXF, hXP, hE, mem_setAdd_self,
                  FinalizeGap, hc, hs, ht, h2]
            · by_cases h3 : call.outcome = "skipped"
              · simp [hx, hap, h2, h3] at hfin
                obtain ⟨hn, he⟩ := hfin
                subst he
                refine ⟨?_, ?_⟩
                · simp [memberCountSix, hP, hF, hS, hXF, hXP, hE]
                · simp [memberCountSix, hP, hF, hS, hXF, hXP, hE,
                    FinalizeGap, hc, hs, ht, hx, hap, h2]
              · simp [hx, hap, h2, h3] at hfin
                obtain ⟨hn, he⟩ := hfin
                subst he
                refine ⟨?_, ?_⟩
                · simp [memberCountSix, hP, hF, hS, hXF, hXP, hE]
                · simp [memberCountSix, hP, hF, hS, hXF, hXP, hE,
                    FinalizeGap, hc, hs, ht, hx, hap, h2]
          · simp [hx, hap] at hfin
            obtain ⟨hn, he⟩ := hfin
            subst he
            refine ⟨?_, ?_⟩
            · simp [memberCountSix, hP, hF, hS, hXP, hE, mem_setAdd_self]
            · simp [memberCountSix, hP, hF, hS, hXP, hE, mem_setAdd_self,
                FinalizeGap, hc, hs, ht, hx]

/-- Witness for the amended C2: finalizing a fully passing node from an
empty record puts its identifier in exactly one set (`FinalizeGap` does
not hold for it). -/
theorem finalize_at_most_one_set_witness :
    memberCountSix
        { passed := setAdd [] "t::p" : TestExecutionRecord } "t::p" ≤ 1 ∧
    (memberCountSix
        { passed := setAdd [] "t::p" : TestExecutionRecord } "t::p" = 0 ↔
      FinalizeGap
        { nodeid := "t::p"
          stages := [(TestStage.Setup, { outcome := "passed" }),
                     (TestStage.Call, { outcome := "passed" }),
                     (TestStage.Teardown, { outcome := "passed" })] }) :=
  finalize_at_most_one_set {}
    { nodeid := "t::p"
      stages := [(TestStage.Setup, { outcome := "passed" }),
                 (TestStage.Call, { outcome := "passed" }),
                 (TestStage.Teardown, { outcome := "passed" })] }
    "t::p"
    { nodeid := "t::p"
      stages := [(TestStage.Setup, { outcome := "passed" }),
                 (TestStage.Call, { outcome := "passed" }),
                 (TestStage.Teardown, { outcome := "passed" })]
      result := TestResult.Passed }
    { passed := setAdd [] "t::p" }
    (by decide) rfl

end RichTrace
